import Mathlib

/-!
Shallow embedding of MatchZoo's point batch generator
(`matchzoo/generators/point_generator.py`) and of the abstract
preprocessor's persistence helpers
(`matchzoo/engine/base_preprocessor.py`), together with the parts of
their collaborators (task descriptors, the DataPack tables, the base
generator construction state, `dill` serialization, a file-system model)
that the verified properties need.

Label cell values are modelled as rationals (covering the integer and
floating-point label values the tables may hold); numpy's `astype(int)`
truncates toward zero, which `Int.tdiv` of numerator by denominator
implements exactly.
-/

deriving instance DecidableEq for Except

/-- Exception kinds raised by the embedded Python code paths. -/
inductive PyErr where
  | nameError
  | typeError
  | keyError
  | indexError
  | valueError (msg : String)
  | fileExistsError
  | fileNotFoundError
  | notImplementedError
  deriving DecidableEq, Repr

/-- Numeric dtypes relevant to the label column: the two values
`MzTask.output_dtype` can take (`int` for Classification, `float` for
Ranking). -/
inductive Dtype where
  | int
  | float
  deriving DecidableEq, Repr

/-- A feature cell of an entity table (tokenized text, lengths, ids …). -/
inductive Cell where
  | int (z : ℤ)
  | str (s : String)
  | intList (l : List ℤ)
  | rat (q : ℚ)
  deriving DecidableEq, Repr

/-- Python `int(q)` / numpy `astype(int)` truncation toward zero of a
rational value. -/
def pyTrunc (q : ℚ) : ℤ :=
  Int.tdiv q.num (q.den : ℤ)

/-- A pandas Series: a dtype tag plus the column's values (here for the
relation table's `label` column). -/
structure Series where
  dtype : Dtype
  values : List ℚ
  deriving DecidableEq, Repr

/-- `series.astype(type_)`: re-tags the dtype, truncating each value
toward zero when the target dtype is `int` and keeping values unchanged
for `float`. -/
def castSeries (t : Dtype) (s : Series) : Series :=
  { dtype := t
    values := match t with
      | Dtype.int => s.values.map (fun q => ((pyTrunc q : ℤ) : ℚ))
      | Dtype.float => s.values }

/-- An entity table (`DataPack.left` or `DataPack.right`): feature column
names plus rows keyed by a string id, one cell per column. -/
structure EntityTable where
  columns : List String
  rows : List (String × List Cell)
  deriving DecidableEq, Repr

/-- The relation table: DataFrame columns `id_left` (position 0),
`id_right` (position 1) and `label` (position 2), all of one length. -/
structure Relation where
  id_left : List String
  id_right : List String
  label : Series
  deriving DecidableEq, Repr

/-- Modelled from the spec: the DataPack aggregate (left table, right
table, relation table, stage flag); the `matchzoo/datapack.py` module is
absent from `src/`, so the shape follows spec section 3. -/
structure DataPack where
  left : EntityTable
  right : EntityTable
  relation : Relation
  stage : String
  deriving DecidableEq, Repr

/-- Modelled from the spec: the task descriptor consumed by the
generator (`matchzoo/tasks` is absent from `src/`): Ranking (scalar
real labels, `output_dtype` float), Classification with `num_classes`
(class-index labels, `output_dtype` int), or any other `BaseTask`
subtype (carrying its display name and its own `output_dtype`). -/
inductive MzTask where
  | ranking
  | classification (num_classes : ℕ)
  | other (name : String) (dtype : Dtype)
  deriving DecidableEq, Repr

/-- Modelled from the spec: `output_dtype`, the numeric representation a
task expects for labels (spec section 6). -/
def MzTask.output_dtype : MzTask → Dtype
  | MzTask.ranking => Dtype.float
  | MzTask.classification _ => Dtype.int
  | MzTask.other _ d => d

/-- Error-propagating map over a list, mirroring how a Python loop or a
pandas gather stops at the first raised exception. -/
def mapE {α β : Type} (g : α → Except PyErr β) : List α → Except PyErr (List β)
  | [] => Except.ok []
  | x :: xs =>
    match g x with
    | Except.error e => Except.error e
    | Except.ok y =>
      match mapE g xs with
      | Except.error e => Except.error e
      | Except.ok ys => Except.ok (y :: ys)

/-- `relation.iloc[index_array, col]` on a string column: positional
lookup, raising IndexError on an out-of-range position. -/
def ilocGather (xs : List String) (idx : List ℕ) : Except PyErr (List String) :=
  mapE (fun i =>
    match xs.get? i with
    | some v => Except.ok v
    | none => Except.error PyErr.indexError) idx

/-- `relation['label'][index_array]` with the default integer index:
label-based lookup coinciding with positional lookup; a missing key is a
KeyError. -/
def seriesGather (vals : List ℚ) (idx : List ℕ) : Except PyErr (List ℚ) :=
  mapE (fun i =>
    match vals.get? i with
    | some v => Except.ok v
    | none => Except.error PyErr.keyError) idx

/-- `table.loc[id, column]`: find the row with the given id (ids are
unique by the DataPack invariant), then take the cell at the column's
position; a missing id or column is a KeyError. -/
def tableLookup (t : EntityTable) (id : String) (col : String) : Except PyErr Cell :=
  match t.rows.find? (fun p => p.1 = id) with
  | none => Except.error PyErr.keyError
  | some p =>
    match t.columns.findIdx? (fun c => c = col) with
    | none => Except.error PyErr.keyError
    | some j =>
      match p.2.get? j with
      | some c => Except.ok c
      | none => Except.error PyErr.keyError

/-- `table.loc[ids, column].tolist()`: gather one cell per id. -/
def gatherColumn (t : EntityTable) (ids : List String) (col : String) : Except PyErr (List Cell) :=
  mapE (fun id => tableLookup t id col) ids

/-- The feature dictionary `batch_x`: insertion-ordered keys. -/
abbrev BatchDict := List (String × List Cell)

/-- `dict.fromkeys(ks)` key list: duplicates dropped, first occurrence
order kept. -/
def dictFromKeysList (ks : List String) : List String :=
  ks.foldl (fun acc k => if k ∈ acc then acc else acc ++ [k]) []

/-- `dict.fromkeys(columns, [])`: every key mapped to the empty list. -/
def initDict (ks : List String) : BatchDict :=
  (dictFromKeysList ks).map (fun k => (k, []))

/-- `d[k] = v`: update in place when the key exists (keeping insertion
order), append at the end otherwise. -/
def dictSet : BatchDict → String → List Cell → BatchDict
  | [], k, v => [(k, v)]
  | p :: d, k, v => if p.1 = k then (k, v) :: d else p :: dictSet d k v

/-- `d[k]` as an optional lookup (first matching key). -/
def dictGet (d : BatchDict) (k : String) : Option (List Cell) :=
  (d.find? (fun p => p.1 = k)).map Prod.snd

/-- `batch_y[idx, j] = v` on one row of a numpy matrix: a non-negative
index `j < n` writes position `j`; a negative index with `-n ≤ j` wraps
around to position `n + j`; anything else raises IndexError. -/
def npSetIdx (row : List ℚ) (j : ℤ) (v : ℚ) : Except PyErr (List ℚ) :=
  if 0 ≤ j ∧ j < (row.length : ℤ) then
    Except.ok (row.set j.toNat v)
  else if -(row.length : ℤ) ≤ j ∧ j < 0 then
    Except.ok (row.set (j + (row.length : ℤ)).toNat v)
  else Except.error PyErr.indexError

/-- One iteration of the Classification loop: the row of
`np.zeros((len(index_array), num_classes))` for one sample after
`batch_y[idx, label] = 1`; a non-integral label is a float index and
raises IndexError, as numpy rejects float indices. -/
def oneHotRow (n : ℕ) (label : ℚ) : Except PyErr (List ℚ) :=
  if label.den = 1 then npSetIdx (List.replicate n (0 : ℚ)) label.num 1
  else Except.error PyErr.indexError

/-- The label part of a batch: a scalar per row for Ranking, a one-hot
matrix for Classification. -/
inductive BatchY where
  | scalars (vals : List ℚ)
  | oneHot (rows : List (List ℚ))
  deriving DecidableEq, Repr

/-- The value a call to `_get_batch_of_transformed_samples` produces:
the feature dictionary, the optional labels, the datapack as left behind
by the call (its relation's label column possibly re-cast in place), and
whether this call executed the `astype` cast statement (line 97, run
whenever the stage is `train`). -/
structure BatchResult where
  batch_x : BatchDict
  batch_y : Option BatchY
  datapack : DataPack
  castPerformed : Bool
  deriving DecidableEq, Repr

/-- Lines 95-108: the train-stage branch. Casts the label column to the
task's `output_dtype` (executed on every train-stage call, before the
task dispatch), then produces `batch_y` by task kind; a task that is
neither Ranking nor Classification raises ValueError. Outside the train
stage nothing runs and `batch_y` stays `None`. Returns the labels, the
datapack after the branch, and whether the cast statement executed. -/
def trainLabels (dp : DataPack) (task : MzTask) (idx : List ℕ) :
    Except PyErr (Option BatchY × DataPack × Bool) :=
  if dp.stage = "train" then
    let rel := { dp.relation with label := castSeries task.output_dtype dp.relation.label }
    let dp' := { dp with relation := rel }
    match task with
    | MzTask.ranking =>
      match seriesGather rel.label.values idx with
      | Except.error e => Except.error e
      | Except.ok vals => Except.ok (some (BatchY.scalars vals), dp', true)
    | MzTask.classification n =>
      match seriesGather rel.label.values idx with
      | Except.error e => Except.error e
      | Except.ok labels =>
        match mapE (oneHotRow n) labels with
        | Except.error e => Except.error e
        | Except.ok rows => Except.ok (some (BatchY.oneHot rows), dp', true)
    | MzTask.other nm _ =>
      Except.error (PyErr.valueError
        (nm ++ " is not a valid task type." ++
          ":class:`Ranking` and :class:`Classification` expected."))
  else Except.ok (none, dp, false)

/-- The per-column gather loop `for column in table.columns:
batch_x[column] = table.loc[ids, column].tolist()`. -/
def setColumnsGo (t : EntityTable) (ids : List String) :
    BatchDict → List String → Except PyErr BatchDict
  | d, [] => Except.ok d
  | d, col :: cols =>
    match gatherColumn t ids col with
    | Except.error e => Except.error e
    | Except.ok v => setColumnsGo t ids (dictSet d col v) cols

/-- Lines 110-121: set `id_left`, gather every left-table column, set
`id_right`, gather every right-table column (final `np.array`
conversion is value-preserving here), then return the batch. -/
def assembleFeatures (dp : DataPack) (idx : List ℕ) (d0 : BatchDict)
    (y : Option BatchY) (c : Bool) : Except PyErr BatchResult :=
  match ilocGather dp.relation.id_left idx with
  | Except.error e => Except.error e
  | Except.ok ids_left =>
    match setColumnsGo dp.left ids_left (dictSet d0 "id_left" (ids_left.map Cell.str)) dp.left.columns with
    | Except.error e => Except.error e
    | Except.ok d2 =>
      match ilocGather dp.relation.id_right idx with
      | Except.error e => Except.error e
      | Except.ok ids_right =>
        match setColumnsGo dp.right ids_right (dictSet d2 "id_right" (ids_right.map Cell.str)) dp.right.columns with
        | Except.error e => Except.error e
        | Except.ok d4 =>
          Except.ok { batch_x := d4, batch_y := y, datapack := dp, castPerformed := c }

/-- `PointGenerator._get_batch_of_transformed_samples(index_array)`
(lines 76-123): build the feature dictionary skeleton from the two
tables' columns plus `id_left`/`id_right`, run the train-stage label
branch, then assemble the features. -/
def getBatch (dp : DataPack) (task : MzTask) (idx : List ℕ) : Except PyErr BatchResult :=
  let d0 := initDict (dp.left.columns ++ dp.right.columns ++ ["id_left", "id_right"])
  match trainLabels dp task idx with
  | Except.error e => Except.error e
  | Except.ok (y, dp', c) => assembleFeatures dp' idx d0 y c

/-- Modelled from the spec: the state `engine.BaseGenerator.__init__`
records (spec section 4.4 construction parameters: batch size, total row
count, stage, shuffle flag); the base generator module is absent from
`src/`. -/
structure BaseGeneratorState where
  batch_size : ℕ
  num_instances : ℕ
  stage : String
  shuffle : Bool
  deriving DecidableEq, Repr

/-- A constructed `PointGenerator`. -/
structure PointGenerator where
  datapack : DataPack
  task : MzTask
  base : BaseGeneratorState
  deriving DecidableEq, Repr

/-- The binding the name `stage` resolves to at
`point_generator.py` line 74: `__init__(self, datapack, task,
batch_size, shuffle)` has no such parameter or local, the class body and
the module define no such name, so the lookup finds nothing. -/
def stageBindingInInitScope : Option String := none

/-- `PointGenerator.__init__(datapack, task, batch_size, shuffle)`
(lines 56-74): stores the datapack and the task, then calls
`super().__init__(batch_size, len(datapack.relation), stage, shuffle)`;
evaluating the argument expression `stage` looks the name up and raises
NameError when no binding exists. -/
def pointGeneratorInit (dp : DataPack) (task : MzTask) (batch_size : ℕ)
    (shuffle : Bool) : Except PyErr PointGenerator :=
  match stageBindingInInitScope with
  | none => Except.error PyErr.nameError
  | some stage =>
    Except.ok
      { datapack := dp
        task := task
        base :=
          { batch_size := batch_size
            num_instances := dp.relation.id_left.length
            stage := stage
            shuffle := shuffle } }

/-- The persistent state a `BasePreprocessor` instance carries: its
fitted `_context` dictionary. -/
structure PreState where
  context : List (String × String)
  deriving DecidableEq, Repr

/-- A `dill` object-graph serialization blob holding a preprocessor. -/
structure Blob where
  payload : PreState
  deriving DecidableEq, Repr

/-- `dill.dump(self, ...)`: serialize the whole object graph. -/
def dillDumps (p : PreState) : Blob := { payload := p }

/-- `dill.load(...)`: deserialize the object graph back. -/
def dillLoads (b : Blob) : PreState := b.payload

/-- `BasePreprocessor.DATA_FILENAME`. -/
def DATA_FILENAME : String := "preprocessor.dill"

/-- A flat file-system model: the set of existing directories and the
files, each keyed by (directory, file name). -/
structure FileSystem where
  dirs : List String
  files : List ((String × String) × Blob)
  deriving DecidableEq, Repr

/-- The contents of file `f` inside directory `d`, if it exists. -/
def fileAt (fs : FileSystem) (d : String) (f : String) : Option Blob :=
  (fs.files.find? (fun p => p.1 = (d, f))).map Prod.snd

/-- `BasePreprocessor.save(dirpath)` (lines 59-77): refuse with
FileExistsError when `dirpath/DATA_FILENAME` already exists (leaving the
file system untouched), otherwise create the directory when absent and
write the serialized object. Returns the resulting file system and the
raised error, if any. -/
def save (fs : FileSystem) (dirpath : String) (p : PreState) :
    FileSystem × Option PyErr :=
  if (fileAt fs dirpath DATA_FILENAME).isSome then
    (fs, some PyErr.fileExistsError)
  else
    let fs1 :=
      if dirpath ∈ fs.dirs then fs
      else { fs with dirs := fs.dirs ++ [dirpath] }
    ({ fs1 with files := fs1.files ++ [((dirpath, DATA_FILENAME), dillDumps p)] }, none)

/-- `load_preprocessor(dirpath)` (lines 80-90): open
`dirpath/DATA_FILENAME` (FileNotFoundError when absent) and
`dill.load` it. -/
def load_preprocessor (fs : FileSystem) (dirpath : String) : Except PyErr PreState :=
  match fileAt fs dirpath DATA_FILENAME with
  | none => Except.error PyErr.fileNotFoundError
  | some b => Except.ok (dillLoads b)

/-- A `BasePreprocessor` subtype, reduced to which abstract methods it
overrides; `abc.ABCMeta` tracks exactly this. -/
structure PreprocessorClass where
  implements_fit : Bool
  implements_transform : Bool
  deriving DecidableEq, Repr

/-- Instantiating a subtype under `abc.ABCMeta`: a class with any
abstract method still unimplemented cannot be instantiated (TypeError);
otherwise `__init__` sets an empty `_context`. -/
def instantiatePreprocessor (cls : PreprocessorClass) : Except PyErr PreState :=
  if cls.implements_fit && cls.implements_transform then
    Except.ok { context := [] }
  else Except.error PyErr.typeError

/-- The body of the abstract `BasePreprocessor.fit` (lines 25-37): a
docstring and nothing else, so executing it returns `None` and raises
nothing. -/
def baseFitBody (inputs : List (String × String × ℚ)) :
    Except PyErr (Option PreState) :=
  Except.ok none

/-- The body of the abstract `BasePreprocessor.transform` (lines 39-49):
a docstring and nothing else, so executing it returns `None` and raises
nothing. -/
def baseTransformBody (inputs : List (String × String × ℚ)) :
    Except PyErr (Option PreState) :=
  Except.ok none

/-! ### Helper lemmas about the embedding -/

theorem mapE_ok_length {α β : Type} (g : α → Except PyErr β) :
    ∀ (xs : List α) (l : List β), mapE g xs = Except.ok l → l.length = xs.length := by
  intro xs
  induction xs with
  | nil => intro l h; simp [mapE] at h; simp [← h]
  | cons x xs ih =>
    intro l h
    simp only [mapE] at h
    cases hx : g x with
    | error e => rw [hx] at h; cases h
    | ok y =>
      rw [hx] at h
      cases hxs : mapE g xs with
      | error e => rw [hxs] at h; cases h
      | ok ys =>
        rw [hxs] at h
        cases h
        simp [ih ys hxs]

theorem mapE_ok_get {α β : Type} (g : α → Except PyErr β) :
    ∀ (xs : List α) (l : List β), mapE g xs = Except.ok l →
      ∀ (k : ℕ) (hk : k < xs.length) (hk' : k < l.length),
        g (xs.get ⟨k, hk⟩) = Except.ok (l.get ⟨k, hk'⟩) := by
  intro xs
  induction xs with
  | nil => intro l _ k hk; exact absurd hk (by simp)
  | cons x xs ih =>
    intro l h k hk hk'
    simp only [mapE] at h
    cases hx : g x with
    | error e => rw [hx] at h; cases h
    | ok y =>
      rw [hx] at h
      cases hxs : mapE g xs with
      | error e => rw [hxs] at h; cases h
      | ok ys =>
        rw [hxs] at h
        cases h
        cases k with
        | zero => simpa using hx
        | succ m =>
          exact ih ys hxs m (Nat.lt_of_succ_lt_succ hk) (Nat.lt_of_succ_lt_succ hk')

theorem mapE_ok_of_forall {α β : Type} (g : α → Except PyErr β) :
    ∀ (xs : List α), (∀ x ∈ xs, ∃ v, g x = Except.ok v) →
      ∃ l, mapE g xs = Except.ok l := by
  intro xs
  induction xs with
  | nil => intro _; exact ⟨[], rfl⟩
  | cons x xs ih =>
    intro h
    obtain ⟨v, hv⟩ := h x (by simp)
    obtain ⟨l, hl⟩ := ih (fun y hy => h y (by simp [hy]))
    exact ⟨v :: l, by simp only [mapE, hv, hl]⟩

theorem mapE_ok_forall_mem {α β : Type} (g : α → Except PyErr β) :
    ∀ (xs : List α) (l : List β), mapE g xs = Except.ok l →
      ∀ x ∈ xs, ∃ v, g x = Except.ok v ∧ v ∈ l := by
  intro xs
  induction xs with
  | nil => intro l _ x hx; cases hx
  | cons x xs ih =>
    intro l h z hz
    simp only [mapE] at h
    cases hx : g x with
    | error e => rw [hx] at h; cases h
    | ok y =>
      rw [hx] at h
      cases hxs : mapE g xs with
      | error e => rw [hxs] at h; cases h
      | ok ys =>
        rw [hxs] at h
        cases h
        rcases List.mem_cons.mp hz with hz | hz
        · subst hz; exact ⟨y, hx, by simp⟩
        · obtain ⟨v, hv, hvm⟩ := ih ys hxs z hz
          exact ⟨v, hv, by simp [hvm]⟩

theorem mapE_error_of_mem {α β : Type} (g : α → Except PyErr β) (e : PyErr) :
    ∀ (xs : List α) (x : α), x ∈ xs → g x = Except.error e →
      (∀ y ∈ xs, (∃ v, g y = Except.ok v) ∨ g y = Except.error e) →
      mapE g xs = Except.error e := by
  intro xs
  induction xs with
  | nil => intro x hx; cases hx
  | cons z xs ih =>
    intro x hx hgx hall
    rcases hall z (by simp) with ⟨v, hv⟩ | hv
    · simp only [mapE, hv]
      rcases List.mem_cons.mp hx with hx | hx
      · subst hx; rw [hgx] at hv; cases hv
      · rw [ih x hx hgx (fun y hy => hall y (by simp [hy]))]
    · simp only [mapE, hv]

theorem sum_replicate_set (n j : ℕ) (h : j < n) :
    ((List.replicate n (0 : ℚ)).set j 1).sum = 1 := by
  induction n generalizing j with
  | zero => omega
  | succ m ih =>
    cases j with
    | zero => simp [List.replicate_succ]
    | succ k => simp [List.replicate_succ, ih k (by omega)]

theorem mem_replicate_set (n j : ℕ) (x : ℚ)
    (h : x ∈ (List.replicate n (0 : ℚ)).set j 1) : x = 0 ∨ x = 1 := by
  rcases List.mem_or_eq_of_mem_set h with hx | hx
  · exact Or.inl (List.eq_of_mem_replicate hx)
  · exact Or.inr hx

theorem pyTrunc_intCast (k : ℤ) : pyTrunc (k : ℚ) = k := by
  simp [pyTrunc, Rat.num_intCast, Rat.den_intCast]

theorem pyTrunc_of_den_eq_one (q : ℚ) (h : q.den = 1) : pyTrunc q = q.num := by
  simp [pyTrunc, h]

theorem castSeries_idem (t : Dtype) (s : Series) :
    castSeries t (castSeries t s) = castSeries t s := by
  cases t with
  | int =>
    simp only [castSeries, List.map_map]
    congr 1
    apply List.map_congr_left
    intro q _
    simp [Function.comp, pyTrunc_intCast]
  | float => rfl

theorem oneHotRow_of_valid (n : ℕ) (q : ℚ) (hden : q.den = 1)
    (h0 : 0 ≤ q.num) (hn : q.num < (n : ℤ)) :
    oneHotRow n q = Except.ok ((List.replicate n (0 : ℚ)).set q.num.toNat 1) := by
  simp only [oneHotRow, npSetIdx, List.length_replicate]
  rw [if_pos hden, if_pos ⟨h0, hn⟩]

theorem oneHotRow_cases (n : ℕ) (q : ℚ) :
    (∃ row, oneHotRow n q = Except.ok row) ∨ oneHotRow n q = Except.error PyErr.indexError := by
  simp only [oneHotRow, npSetIdx]
  by_cases h1 : q.den = 1
  · rw [if_pos h1]
    by_cases h2 : 0 ≤ q.num ∧ q.num < ((List.replicate n (0:ℚ)).length : ℤ)
    · exact Or.inl ⟨_, by rw [if_pos h2]⟩
    · by_cases h3 : -(((List.replicate n (0:ℚ)).length : ℤ)) ≤ q.num ∧ q.num < 0
      · exact Or.inl ⟨_, by rw [if_neg h2, if_pos h3]⟩
      · exact Or.inr (by rw [if_neg h2, if_neg h3])
  · exact Or.inr (by rw [if_neg h1])

theorem oneHotRow_error_of_out_of_range (n : ℕ) (q : ℚ) (hden : q.den = 1)
    (h : q.num < -(n : ℤ) ∨ (n : ℤ) ≤ q.num) :
    oneHotRow n q = Except.error PyErr.indexError := by
  simp only [oneHotRow, npSetIdx, List.length_replicate]
  rw [if_pos hden, if_neg (by omega), if_neg (by omega)]

theorem dictGet_cons (p : String × List Cell) (d : BatchDict) (k : String) :
    dictGet (p :: d) k = if p.1 = k then some p.2 else dictGet d k := by
  by_cases h : p.1 = k
  · rw [if_pos h]
    simp [dictGet, List.find?_cons_of_pos, h]
  · rw [if_neg h]
    simp only [dictGet]
    rw [List.find?_cons_of_neg]
    simp [h]

theorem dictGet_dictSet_self (d : BatchDict) (k : String) (v : List Cell) :
    dictGet (dictSet d k v) k = some v := by
  induction d with
  | nil => simp [dictSet, dictGet_cons]
  | cons p d ih =>
    by_cases h : p.1 = k
    · simp [dictSet, if_pos h, dictGet_cons]
    · rw [dictSet, if_neg h, dictGet_cons, if_neg h]
      exact ih

theorem dictGet_dictSet_other (d : BatchDict) (k k' : String) (v : List Cell)
    (h : k' ≠ k) : dictGet (dictSet d k v) k' = dictGet d k' := by
  induction d with
  | nil =>
    rw [dictSet, dictGet_cons]
    exact if_neg (Ne.symm h)
  | cons p d ih =>
    by_cases hp : p.1 = k
    · rw [dictSet, if_pos hp, dictGet_cons, dictGet_cons]
      rw [if_neg (Ne.symm h), if_neg (by rw [hp]; exact Ne.symm h)]
    · rw [dictSet, if_neg hp, dictGet_cons, dictGet_cons]
      by_cases hq : p.1 = k'
      · rw [if_pos hq, if_pos hq]
      · rw [if_neg hq, if_neg hq]
        exact ih

theorem mem_keys_dictSet (d : BatchDict) (k : String) (v : List Cell) (x : String) :
    x ∈ (dictSet d k v).map Prod.fst ↔ (x ∈ d.map Prod.fst ∨ x = k) := by
  induction d with
  | nil => simp [dictSet]
  | cons p d ih =>
    by_cases hp : p.1 = k
    · rw [dictSet, if_pos hp]
      simp only [List.map_cons, List.mem_cons, ih]
      rw [hp]
      tauto
    · rw [dictSet, if_neg hp]
      simp only [List.map_cons, List.mem_cons, ih]
      tauto

theorem mem_dictFromKeysList_aux (ks : List String) :
    ∀ (acc : List String) (x : String),
      x ∈ ks.foldl (fun acc k => if k ∈ acc then acc else acc ++ [k]) acc ↔
        (x ∈ acc ∨ x ∈ ks) := by
  induction ks with
  | nil => intro acc x; simp
  | cons k ks ih =>
    intro acc x
    simp only [List.foldl_cons]
    by_cases hk : k ∈ acc
    · rw [if_pos hk, ih]
      constructor
      · rintro (hx | hx)
        · exact Or.inl hx
        · exact Or.inr (by simp [hx])
      · rintro (hx | hx)
        · exact Or.inl hx
        · rcases List.mem_cons.mp hx with hx | hx
          · exact Or.inl (hx ▸ hk)
          · exact Or.inr hx
    · rw [if_neg hk, ih]
      simp only [List.mem_append, List.mem_singleton, List.mem_cons]
      tauto

theorem keysList_map_pair (l : List String) :
    (l.map (fun k => (k, ([] : List Cell)))).map Prod.fst = l := by
  induction l with
  | nil => rfl
  | cons z zs ih => simp [ih]

theorem mem_keys_initDict (ks : List String) (x : String) :
    x ∈ (initDict ks).map Prod.fst ↔ x ∈ ks := by
  simp only [initDict]
  rw [keysList_map_pair, dictFromKeysList]
  simpa using mem_dictFromKeysList_aux ks [] x

theorem dictGet_map_nil (l : List String) (k : String) (hmem : k ∈ l) :
    dictGet (l.map (fun k => (k, ([] : List Cell)))) k = some [] := by
  induction l with
  | nil => cases hmem
  | cons z zs ih =>
    rw [List.map_cons, dictGet_cons]
    by_cases hz : z = k
    · rw [if_pos hz]
    · rw [if_neg hz]
      refine ih ?_
      rcases List.mem_cons.mp hmem with h | h
      · exact absurd h.symm hz
      · exact h

theorem dictGet_initDict (ks : List String) (k : String) (hk : k ∈ ks) :
    dictGet (initDict ks) k = some [] := by
  simp only [initDict]
  exact dictGet_map_nil _ k ((mem_dictFromKeysList_aux ks [] k).mpr (Or.inr hk))

/-- Specification of the per-column gather loop: every column of `cols`
ends up bound to its gather result, every other key keeps its previous
binding, and the key set grows by exactly `cols`. -/
theorem setColumnsGo_ok (t : EntityTable) (ids : List String) :
    ∀ (cols : List String) (d d' : BatchDict),
      setColumnsGo t ids d cols = Except.ok d' →
      (∀ k ∈ cols, ∃ v, gatherColumn t ids k = Except.ok v ∧ dictGet d' k = some v) ∧
      (∀ k, k ∉ cols → dictGet d' k = dictGet d k) ∧
      (∀ x, x ∈ d'.map Prod.fst ↔ (x ∈ d.map Prod.fst ∨ x ∈ cols)) := by
  intro cols
  induction cols with
  | nil =>
    intro d d' h
    simp only [setColumnsGo] at h
    cases h
    exact ⟨fun k hk => absurd hk (by simp), fun k _ => rfl, fun x => by simp⟩
  | cons c cs ih =>
    intro d d' h
    simp only [setColumnsGo] at h
    cases hg : gatherColumn t ids c with
    | error e => rw [hg] at h; cases h
    | ok v =>
      rw [hg] at h
      obtain ⟨h1, h2, h3⟩ := ih (dictSet d c v) d' h
      refine ⟨?_, ?_, ?_⟩
      · intro k hk
        rcases List.mem_cons.mp hk with hk | hk
        · subst hk
          by_cases hc : k ∈ cs
          · exact h1 k hc
          · exact ⟨v, hg, by rw [h2 k hc, dictGet_dictSet_self]⟩
        · exact h1 k hk
      · intro k hk
        have hkc : k ≠ c := fun hc => hk (by simp [hc])
        have hkcs : k ∉ cs := fun hc => hk (by simp [hc])
        rw [h2 k hkcs, dictGet_dictSet_other d c k v hkc]
      · intro x
        rw [h3 x, mem_keys_dictSet]
        simp only [List.mem_cons]
        tauto

/-- Specification of the feature-assembly phase: the labels, the
datapack and the cast flag pass through unchanged, and the feature
dictionary arises from the two id gathers and the two column loops. -/
theorem assembleFeatures_ok (dp : DataPack) (idx : List ℕ) (d0 : BatchDict)
    (y : Option BatchY) (c : Bool) (r : BatchResult)
    (h : assembleFeatures dp idx d0 y c = Except.ok r) :
    r.batch_y = y ∧ r.datapack = dp ∧ r.castPerformed = c ∧
    ∃ ids_left ids_right d2,
      ilocGather dp.relation.id_left idx = Except.ok ids_left ∧
      ilocGather dp.relation.id_right idx = Except.ok ids_right ∧
      setColumnsGo dp.left ids_left (dictSet d0 "id_left" (ids_left.map Cell.str)) dp.left.columns
        = Except.ok d2 ∧
      setColumnsGo dp.right ids_right (dictSet d2 "id_right" (ids_right.map Cell.str)) dp.right.columns
        = Except.ok r.batch_x := by
  simp only [assembleFeatures] at h
  split at h
  · cases h
  · rename_i ids_left h1
    split at h
    · cases h
    · rename_i d2 h2
      split at h
      · cases h
      · rename_i ids_right h3
        split at h
        · cases h
        · rename_i d4 h4
          cases h
          exact ⟨rfl, rfl, rfl, ids_left, ids_right, d2, h1, h3, h2, h4⟩

/-- Outside the train stage, the label branch does nothing. -/
theorem trainLabels_not_train (dp : DataPack) (task : MzTask) (idx : List ℕ)
    (h : dp.stage ≠ "train") :
    trainLabels dp task idx = Except.ok (none, dp, false) := by
  simp only [trainLabels, if_neg h]

/-- Whenever the label branch returns, the cast flag records whether the
stage was `train`, and the returned datapack is the input with its label
column cast (train) or untouched (otherwise). -/
theorem trainLabels_ok_state (dp : DataPack) (task : MzTask) (idx : List ℕ)
    (y : Option BatchY) (dp' : DataPack) (c : Bool)
    (h : trainLabels dp task idx = Except.ok (y, dp', c)) :
    c = decide (dp.stage = "train") ∧
    dp' = (if dp.stage = "train" then
            { dp with relation :=
                { dp.relation with label := castSeries task.output_dtype dp.relation.label } }
          else dp) := by
  by_cases hs : dp.stage = "train"
  · rw [if_pos hs]
    cases task with
    | ranking =>
      simp only [trainLabels, if_pos hs] at h
      split at h
      · cases h
      · cases h; exact ⟨by simp [hs], rfl⟩
    | classification n =>
      simp only [trainLabels, if_pos hs] at h
      split at h
      · cases h
      · split at h
        · cases h
        · cases h; exact ⟨by simp [hs], rfl⟩
    | other nm d =>
      simp only [trainLabels, if_pos hs] at h
      cases h
  · rw [trainLabels_not_train dp task idx hs] at h
    cases h
    rw [if_neg hs]
    exact ⟨by simp [hs], rfl⟩

theorem castSeries_values_length (t : Dtype) (s : Series) :
    (castSeries t s).values.length = s.values.length := by
  cases t <;> simp [castSeries]

theorem castSeries_int_values_get? (s : Series) (i : ℕ) :
    (castSeries Dtype.int s).values.get? i
      = (s.values.get? i).map (fun q => ((pyTrunc q : ℤ) : ℚ)) := by
  simp [castSeries, List.get?_map]

theorem castSeries_float_values (s : Series) :
    (castSeries Dtype.float s).values = s.values := rfl

theorem seriesGather_ok_of_valid (vals : List ℚ) (idx : List ℕ)
    (h : ∀ i ∈ idx, i < vals.length) :
    ∃ l, seriesGather vals idx = Except.ok l := by
  apply mapE_ok_of_forall
  intro i hi
  cases hv : vals.get? i with
  | none =>
    rw [List.get?_eq_none] at hv
    exact absurd (h i hi) (Nat.not_lt.mpr hv)
  | some v => exact ⟨v, by simp only [hv]⟩

theorem getBatch_ok_decomp (dp : DataPack) (task : MzTask) (idx : List ℕ)
    (r : BatchResult) (h : getBatch dp task idx = Except.ok r) :
    ∃ y dp' c, trainLabels dp task idx = Except.ok (y, dp', c) ∧
      assembleFeatures dp' idx
        (initDict (dp.left.columns ++ dp.right.columns ++ ["id_left", "id_right"])) y c
        = Except.ok r := by
  simp only [getBatch] at h
  split at h
  · cases h
  · rename_i y dp' c heq
    exact ⟨y, dp', c, heq, h⟩

theorem getBatch_error_of_trainLabels (dp : DataPack) (task : MzTask)
    (idx : List ℕ) (e : PyErr) (h : trainLabels dp task idx = Except.error e) :
    getBatch dp task idx = Except.error e := by
  simp only [getBatch, h]

theorem trainLabels_ranking_inv (dp : DataPack) (idx : List ℕ)
    (y : Option BatchY) (dp' : DataPack) (c : Bool) (hs : dp.stage = "train")
    (h : trainLabels dp MzTask.ranking idx = Except.ok (y, dp', c)) :
    ∃ vals, seriesGather (castSeries Dtype.float dp.relation.label).values idx = Except.ok vals ∧
      y = some (BatchY.scalars vals) := by
  simp only [trainLabels, MzTask.output_dtype, if_pos hs] at h
  split at h
  · cases h
  · cases h
    rename_i vals heq
    exact ⟨vals, heq, rfl⟩

theorem trainLabels_classification_inv (dp : DataPack) (n : ℕ) (idx : List ℕ)
    (y : Option BatchY) (dp' : DataPack) (c : Bool) (hs : dp.stage = "train")
    (h : trainLabels dp (MzTask.classification n) idx = Except.ok (y, dp', c)) :
    ∃ labels rows,
      seriesGather (castSeries Dtype.int dp.relation.label).values idx = Except.ok labels ∧
      mapE (oneHotRow n) labels = Except.ok rows ∧
      y = some (BatchY.oneHot rows) := by
  simp only [trainLabels, MzTask.output_dtype, if_pos hs] at h
  split at h
  · cases h
  · rename_i labels hg
    split at h
    · cases h
    · cases h
      rename_i rows hr
      exact ⟨labels, rows, hg, hr, rfl⟩

theorem trainLabels_other_train (dp : DataPack) (nm : String) (d : Dtype)
    (idx : List ℕ) (hs : dp.stage = "train") :
    trainLabels dp (MzTask.other nm d) idx
      = Except.error (PyErr.valueError
          (nm ++ " is not a valid task type." ++
            ":class:`Ranking` and :class:`Classification` expected.")) := by
  simp only [trainLabels, if_pos hs]

theorem trainLabels_classification_error (dp : DataPack) (n : ℕ) (idx : List ℕ)
    (labels : List ℚ) (e : PyErr) (hs : dp.stage = "train")
    (hg : seriesGather (castSeries Dtype.int dp.relation.label).values idx = Except.ok labels)
    (hr : mapE (oneHotRow n) labels = Except.error e) :
    trainLabels dp (MzTask.classification n) idx = Except.error e := by
  simp only [trainLabels, MzTask.output_dtype, if_pos hs, hg, hr]

theorem mapE_ok_mem_rev {α β : Type} (g : α → Except PyErr β) :
    ∀ (xs : List α) (l : List β), mapE g xs = Except.ok l →
      ∀ v ∈ l, ∃ x ∈ xs, g x = Except.ok v := by
  intro xs
  induction xs with
  | nil =>
    intro l h v hv
    simp only [mapE] at h
    cases h
    cases hv
  | cons x xs ih =>
    intro l h v hv
    simp only [mapE] at h
    split at h
    · cases h
    · rename_i y hy
      split at h
      · cases h
      · rename_i ys hys
        cases h
        rcases List.mem_cons.mp hv with hv | hv
        · exact ⟨x, by simp, hv ▸ hy⟩
        · obtain ⟨z, hz, hgz⟩ := ih ys hys v hv
          exact ⟨z, by simp [hz], hgz⟩

theorem save_spec_exists (fs : FileSystem) (d : String) (p : PreState)
    (h : (fileAt fs d DATA_FILENAME).isSome = true) :
    save fs d p = (fs, some PyErr.fileExistsError) := by
  simp [save, h]

theorem save_spec_not_exists (fs : FileSystem) (d : String) (p : PreState)
    (h : (fileAt fs d DATA_FILENAME).isSome = false) :
    (save fs d p).2 = none ∧ d ∈ (save fs d p).1.dirs ∧
    fileAt (save fs d p).1 d DATA_FILENAME = some (dillDumps p) := by
  have h' : ¬ (fileAt fs d DATA_FILENAME).isSome = true := by simp [h]
  have hfind : fs.files.find? (fun q => q.1 = (d, DATA_FILENAME)) = none := by
    cases hf : fs.files.find? (fun q => q.1 = (d, DATA_FILENAME)) with
    | none => rfl
    | some q => exact absurd (by simp [fileAt, hf]) h'
  have happ : ∀ (l : List ((String × String) × Blob)),
      l.find? (fun q => q.1 = (d, DATA_FILENAME)) = none →
      (l ++ [((d, DATA_FILENAME), dillDumps p)]).find? (fun q => q.1 = (d, DATA_FILENAME))
        = some ((d, DATA_FILENAME), dillDumps p) := by
    intro l hl
    induction l with
    | nil => simp [List.find?]
    | cons q l ihl =>
      rw [List.cons_append]
      by_cases hq : q.1 = (d, DATA_FILENAME)
      · rw [List.find?_cons_of_pos _ (by simpa using hq)] at hl
        cases hl
      · rw [List.find?_cons_of_neg _ (by simpa using hq)] at hl
        rw [List.find?_cons_of_neg _ (by simpa using hq)]
        exact ihl hl
  have hfiles : (save fs d p).1.files = fs.files ++ [((d, DATA_FILENAME), dillDumps p)] := by
    by_cases hd : d ∈ fs.dirs <;> simp [save, h', hd]
  refine ⟨by simp [save, h'], ?_, ?_⟩
  · by_cases hd : d ∈ fs.dirs <;> simp [save, h', hd]
  · simp only [fileAt, hfiles]
    rw [happ fs.files hfind]
    rfl

theorem save_ok_not_exists (fs : FileSystem) (d : String) (p : PreState)
    (h : (save fs d p).2 = none) :
    (fileAt fs d DATA_FILENAME).isSome = false := by
  by_cases hf : (fileAt fs d DATA_FILENAME).isSome = true
  · rw [save_spec_exists fs d p hf] at h
    cases h
  · simpa using hf

/-! ### Claim theorems -/

/-- C1: the claim says constructing a `PointGenerator` succeeds for every
DataPack, task, batch size, stage and shuffle flag; the code instead
always raises NameError, because `__init__` has no `stage` parameter yet
its `super().__init__` call evaluates the undefined name `stage`
(point_generator.py line 74) — so the class's own doctest cannot run
either. This theorem evaluates the embedded constructor: it raises
NameError on every input. -/
theorem pointGeneratorInit_always_nameError (dp : DataPack) (task : MzTask)
    (batch_size : ℕ) (shuffle : Bool) :
    pointGeneratorInit dp task batch_size shuffle = Except.error PyErr.nameError := rfl

/-- A one-row DataPack in the `predict` stage with no feature columns. -/
def dpPredictTiny : DataPack :=
  { left := { columns := [], rows := [("q0", [])] }
    right := { columns := [], rows := [("d0", [])] }
    relation := { id_left := ["q0"], id_right := ["d0"]
                  label := { dtype := Dtype.float, values := [1] } }
    stage := "predict" }

/-- C6 counterexample: with a task that is neither Ranking nor
Classification, a batch request in the `predict` stage does NOT raise
ValueError — the task dispatch sits inside the train-only branch, so the
batch is silently returned with no labels, contradicting the claim's
"for any stage". -/
theorem unsupported_task_nontrain_silently_returns :
    (getBatch dpPredictTiny (MzTask.other "CustomTask" Dtype.float) [0]).map
        BatchResult.batch_y = Except.ok none := by decide

/-- C6 amended: in the `train` stage (and only there), batch assembly
with a task that is neither Ranking nor Classification fails with the
ValueError whose message names the two supported kinds; other stages
never inspect the task and return a label-free batch. -/
theorem unsupported_task_train_valueError (dp : DataPack) (nm : String)
    (d : Dtype) (idx : List ℕ) (hstage : dp.stage = "train") :
    getBatch dp (MzTask.other nm d) idx
      = Except.error (PyErr.valueError
          (nm ++ " is not a valid task type." ++
            ":class:`Ranking` and :class:`Classification` expected.")) :=
  getBatch_error_of_trainLabels dp (MzTask.other nm d) idx _
    (trainLabels_other_train dp nm d idx hstage)

/-- The same one-row DataPack in the `train` stage. -/
def dpTrainTiny : DataPack :=
  { dpPredictTiny with stage := "train" }

/-- C6 witness: the amended theorem applied at a concrete train-stage
datapack and task. -/
theorem unsupported_task_train_valueError_witness :
    getBatch dpTrainTiny (MzTask.other "CustomTask" Dtype.float) [0]
      = Except.error (PyErr.valueError
          ("CustomTask" ++ " is not a valid task type." ++
            ":class:`Ranking` and :class:`Classification` expected.")) :=
  unsupported_task_train_valueError dpTrainTiny "CustomTask" Dtype.float [0] rfl

/-- C8: `save` refuses with FileExistsError when the target file exists,
returning the file system unchanged (so the existing file's contents are
untouched); otherwise it raises nothing, the target directory exists
afterwards (created when absent), and the serialized object sits in the
target file. -/
theorem save_exists_guard (fs : FileSystem) (d : String) (p : PreState) :
    ((fileAt fs d DATA_FILENAME).isSome = true →
      save fs d p = (fs, some PyErr.fileExistsError)) ∧
    ((fileAt fs d DATA_FILENAME).isSome = false →
      (save fs d p).2 = none ∧ d ∈ (save fs d p).1.dirs ∧
      fileAt (save fs d p).1 d DATA_FILENAME = some (dillDumps p)) :=
  ⟨save_spec_exists fs d p, save_spec_not_exists fs d p⟩

/-- A fitted preprocessor state used by the persistence witnesses. -/
def preFitted : PreState := { context := [("vocab_size", "100")] }

/-- A file system already holding the target file. -/
def fsWithTarget : FileSystem :=
  { dirs := ["model"], files := [(("model", DATA_FILENAME), dillDumps preFitted)] }

/-- An empty file system. -/
def fsEmpty : FileSystem := { dirs := [], files := [] }

/-- C8 witness: both branches of the guard at concrete file systems. -/
theorem save_exists_guard_witness :
    save fsWithTarget "model" preFitted = (fsWithTarget, some PyErr.fileExistsError) ∧
    ((save fsEmpty "model" preFitted).2 = none ∧
      "model" ∈ (save fsEmpty "model" preFitted).1.dirs ∧
      fileAt (save fsEmpty "model" preFitted).1 "model" DATA_FILENAME
        = some (dillDumps preFitted)) :=
  ⟨(save_exists_guard fsWithTarget "model" preFitted).1 (by decide),
    (save_exists_guard fsEmpty "model" preFitted).2 (by decide)⟩

/-- C9 counterexample: the claim says invoking an unimplemented
`fit`/`transform` fails at call time with a "not implemented" condition.
In the code the protection is `abc.ABCMeta` refusing instantiation with
TypeError, and the abstract method bodies are docstring-only: executed
directly they silently return `None`, not a NotImplementedError. -/
theorem abstract_methods_silent_none :
    instantiatePreprocessor { implements_fit := false, implements_transform := false }
      = Except.error PyErr.typeError ∧
    baseFitBody [] = Except.ok none ∧
    baseTransformBody [] = Except.ok none ∧
    (Except.ok none : Except PyErr (Option PreState))
      ≠ Except.error PyErr.notImplementedError := by
  exact ⟨rfl, rfl, rfl, by decide⟩

/-- C9 amended: a preprocessor subtype missing `fit` or `transform`
cannot be instantiated (TypeError at construction time, before any call
can happen); the abstract base bodies themselves, when executed, return
`None` and raise nothing. -/
theorem abstract_instantiation_typeError (cls : PreprocessorClass)
    (h : cls.implements_fit = false ∨ cls.implements_transform = false) :
    instantiatePreprocessor cls = Except.error PyErr.typeError ∧
    (∀ inputs, baseFitBody inputs = Except.ok none) ∧
    (∀ inputs, baseTransformBody inputs = Except.ok none) := by
  refine ⟨?_, fun _ => rfl, fun _ => rfl⟩
  rcases h with h | h <;> simp [instantiatePreprocessor, h]

/-- C9 witness: the amended theorem applied to a class lacking `fit`. -/
theorem abstract_instantiation_typeError_witness :
    instantiatePreprocessor { implements_fit := false, implements_transform := true }
      = Except.error PyErr.typeError ∧
    baseFitBody [("hello", "world", 1)] = Except.ok none := by
  obtain ⟨h1, h2, h3⟩ := abstract_instantiation_typeError
    { implements_fit := false, implements_transform := true } (Or.inl rfl)
  exact ⟨h1, h2 [("hello", "world", 1)]⟩

/-- C10: when `save` into a directory succeeds, `load_preprocessor` from
that directory returns a preprocessor whose fitted context equals the
saved one (save followed by load is a round trip on fitted state; `dill`
is modelled as a faithful object-graph serialization, which spec section
6 requires of it). -/
theorem save_load_roundtrip (fs : FileSystem) (d : String) (p : PreState)
    (h : (save fs d p).2 = none) :
    ∃ q, load_preprocessor (save fs d p).1 d = Except.ok q ∧
      q.context = p.context := by
  obtain ⟨-, -, hfile⟩ := save_spec_not_exists fs d p (save_ok_not_exists fs d p h)
  exact ⟨dillLoads (dillDumps p), by simp [load_preprocessor, hfile], rfl⟩

/-- C10 witness: round trip at a concrete preprocessor state. -/
theorem save_load_roundtrip_witness :
    ∃ q, load_preprocessor (save fsEmpty "prep" preFitted).1 "prep" = Except.ok q ∧
      q.context = preFitted.context :=
  save_load_roundtrip fsEmpty "prep" preFitted (by decide)

/-- C7 counterexample: the claim says the label-column cast runs at most
once per DataPack, on the first train-stage batch. In the code the
`astype` assignment (line 97) executes on EVERY train-stage batch
request: here a second request on the datapack left by the first still
performs the cast. -/
theorem label_cast_executes_every_train_batch :
    (getBatch dpTrainTiny MzTask.ranking [0]).map BatchResult.castPerformed
      = Except.ok true ∧
    ((getBatch dpTrainTiny MzTask.ranking [0]).bind
        (fun r => getBatch r.datapack MzTask.ranking [0])).map BatchResult.castPerformed
      = Except.ok true :=
  ⟨by decide, by decide⟩

/-- C7 amended: the cast assignment executes on every train-stage batch
request (the cast flag is set exactly when the stage is `train`, on the
second request just as on the first), but it is idempotent: from the
second request onward the relation table — indeed the whole datapack —
is left unchanged, so only the first train-stage request observably
modifies the label column. -/
theorem label_cast_idempotent_after_first (dp : DataPack) (task : MzTask)
    (idx idx2 : List ℕ) (r r2 : BatchResult)
    (h1 : getBatch dp task idx = Except.ok r)
    (h2 : getBatch r.datapack task idx2 = Except.ok r2) :
    (r.castPerformed = true ↔ dp.stage = "train") ∧
    r2.castPerformed = r.castPerformed ∧
    r2.datapack = r.datapack := by
  obtain ⟨y, dp', c, htl, haf⟩ := getBatch_ok_decomp dp task idx r h1
  obtain ⟨hy, hdp, hc, -⟩ := assembleFeatures_ok dp' idx _ y c r haf
  obtain ⟨hc', hdp'⟩ := trainLabels_ok_state dp task idx y dp' c htl
  obtain ⟨y2, dp2, c2, htl2, haf2⟩ := getBatch_ok_decomp r.datapack task idx2 r2 h2
  obtain ⟨hy2, hdp2, hc2, -⟩ := assembleFeatures_ok dp2 idx2 _ y2 c2 r2 haf2
  obtain ⟨hc2', hdp2'⟩ := trainLabels_ok_state r.datapack task idx2 y2 dp2 c2 htl2
  have hstage : r.datapack.stage = dp.stage := by
    rw [hdp, hdp']
    by_cases hs : dp.stage = "train"
    · rw [if_pos hs]
    · rw [if_neg hs]
  refine ⟨?_, ?_, ?_⟩
  · rw [hc, hc']
    simp
  · rw [hc2, hc2', hc, hc', hstage]
  · rw [hdp2, hdp2', hstage, hdp, hdp']
    by_cases hs : dp.stage = "train"
    · simp only [if_pos hs]
      simp [castSeries_idem]
    · simp only [if_neg hs]

/-- The batch the tiny train-stage datapack produces under Ranking. -/
def rTrainTiny : BatchResult :=
  { batch_x := [("id_left", [Cell.str "q0"]), ("id_right", [Cell.str "d0"])]
    batch_y := some (BatchY.scalars [1])
    datapack := dpTrainTiny
    castPerformed := true }

/-- C7 witness: the amended theorem applied to two consecutive concrete
train-stage batch requests. -/
theorem label_cast_idempotent_after_first_witness :
    (rTrainTiny.castPerformed = true ↔ dpTrainTiny.stage = "train") ∧
    rTrainTiny.castPerformed = rTrainTiny.castPerformed ∧
    rTrainTiny.datapack = rTrainTiny.datapack :=
  label_cast_idempotent_after_first dpTrainTiny MzTask.ranking [0] [0] rTrainTiny rTrainTiny
    (by decide) (by decide)

/-- C4: for every train-stage Ranking batch, the returned label array is
exactly the (dtype-cast) relation label values at the batch's index
positions, one scalar per batch row, in index order. -/
theorem ranking_labels_match_relation (dp : DataPack) (idx : List ℕ) (r : BatchResult)
    (hstage : dp.stage = "train")
    (hok : getBatch dp MzTask.ranking idx = Except.ok r) :
    ∃ vals, r.batch_y = some (BatchY.scalars vals) ∧
      vals.length = idx.length ∧
      ∀ (k : ℕ) (hk : k < idx.length),
        vals.get? k = (castSeries Dtype.float dp.relation.label).values.get? (idx.get ⟨k, hk⟩) := by
  obtain ⟨y, dp', c, htl, haf⟩ := getBatch_ok_decomp dp MzTask.ranking idx r hok
  obtain ⟨hy, -, -, -⟩ := assembleFeatures_ok dp' idx _ y c r haf
  obtain ⟨vals, hg, hyv⟩ := trainLabels_ranking_inv dp idx y dp' c hstage htl
  have hg' : mapE (fun i =>
      match (castSeries Dtype.float dp.relation.label).values.get? i with
      | some v => Except.ok v
      | none => Except.error PyErr.keyError) idx = Except.ok vals := hg
  have hlen : vals.length = idx.length := mapE_ok_length _ idx vals hg'
  refine ⟨vals, by rw [hy, hyv], hlen, ?_⟩
  intro k hk
  have hk' : k < vals.length := by omega
  have hget := mapE_ok_get _ idx vals hg' k hk hk'
  cases hv : (castSeries Dtype.float dp.relation.label).values.get? (idx.get ⟨k, hk⟩) with
  | none => rw [hv] at hget; cases hget
  | some v =>
    rw [hv] at hget
    cases hget
    rw [List.get?_eq_get hk']

/-- C4 witness: the theorem applied at a concrete train-stage Ranking
batch. -/
theorem ranking_labels_match_relation_witness :
    ∃ vals, rTrainTiny.batch_y = some (BatchY.scalars vals) ∧ vals.length = 1 := by
  obtain ⟨vals, h1, h2, -⟩ :=
    ranking_labels_match_relation dpTrainTiny [0] rTrainTiny rfl (by decide)
  exact ⟨vals, h1, h2⟩

/-- C2: for every train-stage Classification batch whose label values
are valid class indices, the label matrix has one row per batch index,
each row the one-hot vector with its single 1 at the label's column, so
every row sums to 1 and contains only 0/1 entries. -/
theorem classification_one_hot_labels (dp : DataPack) (n : ℕ) (idx : List ℕ)
    (r : BatchResult) (hstage : dp.stage = "train")
    (hvalid : ∀ i ∈ idx, ∃ q, dp.relation.label.values.get? i = some q ∧
        q.den = 1 ∧ 0 ≤ q.num ∧ q.num < (n : ℤ))
    (hok : getBatch dp (MzTask.classification n) idx = Except.ok r) :
    ∃ rows, r.batch_y = some (BatchY.oneHot rows) ∧
      rows.length = idx.length ∧
      (∀ (k : ℕ) (hk : k < idx.length), ∃ q,
        dp.relation.label.values.get? (idx.get ⟨k, hk⟩) = some q ∧
        rows.get? k = some ((List.replicate n (0 : ℚ)).set q.num.toNat 1)) ∧
      (∀ row ∈ rows, row.sum = 1 ∧ ∀ x ∈ row, x = 0 ∨ x = 1) := by
  obtain ⟨y, dp', c, htl, haf⟩ := getBatch_ok_decomp _ _ _ _ hok
  obtain ⟨hy, -, -, -⟩ := assembleFeatures_ok dp' idx _ y c r haf
  obtain ⟨labels, rows, hg, hr, hyv⟩ :=
    trainLabels_classification_inv dp n idx y dp' c hstage htl
  have hg' : mapE (fun i =>
      match (castSeries Dtype.int dp.relation.label).values.get? i with
      | some v => Except.ok v
      | none => Except.error PyErr.keyError) idx = Except.ok labels := hg
  have hlenl : labels.length = idx.length := mapE_ok_length _ idx labels hg'
  have hlenr : rows.length = labels.length := mapE_ok_length _ labels rows hr
  refine ⟨rows, by rw [hy, hyv], by omega, ?_, ?_⟩
  · intro k hk
    have hk2 : k < labels.length := by omega
    have hk3 : k < rows.length := by omega
    obtain ⟨q, hq, hden, h0, hn⟩ := hvalid (idx.get ⟨k, hk⟩) (List.get_mem idx k hk)
    refine ⟨q, hq, ?_⟩
    have hcast : (castSeries Dtype.int dp.relation.label).values.get? (idx.get ⟨k, hk⟩)
        = some ((pyTrunc q : ℤ) : ℚ) := by
      rw [castSeries_int_values_get?, hq]
      rfl
    have hlabk := mapE_ok_get _ idx labels hg' k hk hk2
    rw [hcast] at hlabk
    have hlab_eq : ((pyTrunc q : ℤ) : ℚ) = labels.get ⟨k, hk2⟩ := by injection hlabk
    have hrowk := mapE_ok_get _ labels rows hr k hk2 hk3
    rw [← hlab_eq, pyTrunc_of_den_eq_one q hden] at hrowk
    rw [oneHotRow_of_valid n ((q.num : ℤ) : ℚ) (by simp) (by simpa using h0)
      (by simpa using hn)] at hrowk
    have hrow_eq := Except.ok.inj hrowk
    rw [List.get?_eq_get hk3, ← hrow_eq]
    simp
  · intro row hrow_mem
    obtain ⟨lab, hlabmem, hohr⟩ := mapE_ok_mem_rev _ labels rows hr row hrow_mem
    obtain ⟨i, hi_mem, hgi⟩ := mapE_ok_mem_rev _ idx labels hg' lab hlabmem
    obtain ⟨q, hq, hden, h0, hn⟩ := hvalid i hi_mem
    have hcast : (castSeries Dtype.int dp.relation.label).values.get? i
        = some ((pyTrunc q : ℤ) : ℚ) := by
      rw [castSeries_int_values_get?, hq]
      rfl
    rw [hcast] at hgi
    have hlab_eq : ((pyTrunc q : ℤ) : ℚ) = lab := by injection hgi
    rw [← hlab_eq, pyTrunc_of_den_eq_one q hden] at hohr
    rw [oneHotRow_of_valid n ((q.num : ℤ) : ℚ) (by simp) (by simpa using h0)
      (by simpa using hn)] at hohr
    have hrow_eq := Except.ok.inj hohr
    have hnum : ((q.num : ℤ) : ℚ).num.toNat = q.num.toNat := by simp
    have hjn : q.num.toNat < n := by omega
    constructor
    · rw [← hrow_eq, hnum]
      exact sum_replicate_set n q.num.toNat hjn
    · intro x hx
      rw [← hrow_eq] at hx
      exact mem_replicate_set n _ x hx

/-- The train-stage tiny datapack with its label column cast to int. -/
def dpTrainTinyInt : DataPack :=
  { dpTrainTiny with relation :=
      { dpTrainTiny.relation with label := { dtype := Dtype.int, values := [1] } } }

/-- The batch the tiny train-stage datapack produces under
Classification(2). -/
def rClassTiny : BatchResult :=
  { batch_x := [("id_left", [Cell.str "q0"]), ("id_right", [Cell.str "d0"])]
    batch_y := some (BatchY.oneHot [[0, 1]])
    datapack := dpTrainTinyInt
    castPerformed := true }

/-- C2 witness: the theorem applied to the concrete scenario of spec
section 8 (label 1, two classes, one-row batch). -/
theorem classification_one_hot_labels_witness :
    ∃ rows, rClassTiny.batch_y = some (BatchY.oneHot rows) ∧
      rows.length = 1 ∧ (∀ row ∈ rows, row.sum = 1 ∧ ∀ x ∈ row, x = 0 ∨ x = 1) := by
  obtain ⟨rows, h1, h2, -, h4⟩ := classification_one_hot_labels dpTrainTiny 2 [0] rClassTiny rfl
    (by
      intro i hi
      have hi0 : i = 0 := by simpa using hi
      subst hi0
      refine ⟨1, rfl, ?_⟩
      decide)
    (by decide)
  exact ⟨rows, h1, h2, h4⟩

/-- The tiny train-stage datapack with the out-of-range label -1. -/
def dpNegLabel : DataPack :=
  { dpTrainTiny with relation :=
      { dpTrainTiny.relation with label := { dtype := Dtype.float, values := [-1] } } }

/-- C3 counterexample: the claim says any label outside [0, num_classes)
is a fatal indexing error, including negative labels. With label -1 and
two classes the numpy assignment wraps the negative index around: the
batch succeeds and silently produces the one-hot row [0, 1]. -/
theorem negative_label_silently_one_hot :
    ¬ (0 ≤ (-1 : ℤ) ∧ (-1 : ℤ) < 2) ∧
    dpNegLabel.relation.label.values.get? 0 = some (-1 : ℚ) ∧
    (getBatch dpNegLabel (MzTask.classification 2) [0]).map BatchResult.batch_y
      = Except.ok (some (BatchY.oneHot [[0, 1]])) :=
  ⟨by decide, rfl, by decide⟩

/-- C3 amended: batch assembly fails with IndexError exactly when some
(int-cast) label value falls outside numpy's acceptable index range
[-num_classes, num_classes); labels in [-num_classes, -1] are instead
silently accepted through negative-index wraparound. -/
theorem classification_out_of_range_indexError (dp : DataPack) (n : ℕ) (idx : List ℕ)
    (hstage : dp.stage = "train")
    (hidx : ∀ i ∈ idx, i < dp.relation.label.values.length)
    (hbad : ∃ i ∈ idx, ∃ q, dp.relation.label.values.get? i = some q ∧
        (pyTrunc q < -(n : ℤ) ∨ (n : ℤ) ≤ pyTrunc q)) :
    getBatch dp (MzTask.classification n) idx = Except.error PyErr.indexError := by
  have hidx' : ∀ i ∈ idx, i < (castSeries Dtype.int dp.relation.label).values.length := by
    intro i hi
    rw [castSeries_values_length]
    exact hidx i hi
  obtain ⟨labels, hg⟩ := seriesGather_ok_of_valid _ idx hidx'
  have hg' : mapE (fun i =>
      match (castSeries Dtype.int dp.relation.label).values.get? i with
      | some v => Except.ok v
      | none => Except.error PyErr.keyError) idx = Except.ok labels := hg
  obtain ⟨i, hi_mem, q, hq, hbadq⟩ := hbad
  have hcast : (castSeries Dtype.int dp.relation.label).values.get? i
      = some ((pyTrunc q : ℤ) : ℚ) := by
    rw [castSeries_int_values_get?, hq]
    rfl
  obtain ⟨v, hv, hvmem⟩ := mapE_ok_forall_mem _ idx labels hg' i hi_mem
  rw [hcast] at hv
  have hveq : ((pyTrunc q : ℤ) : ℚ) = v := by injection hv
  have hbadrow : oneHotRow n v = Except.error PyErr.indexError := by
    rw [← hveq]
    exact oneHotRow_error_of_out_of_range n _ (by simp) (by simpa using hbadq)
  have hmapr : mapE (oneHotRow n) labels = Except.error PyErr.indexError :=
    mapE_error_of_mem _ _ labels v hvmem hbadrow (fun y _ => oneHotRow_cases n y)
  exact getBatch_error_of_trainLabels _ _ _ _
    (trainLabels_classification_error dp n idx labels _ hstage hg hmapr)

/-- The tiny train-stage datapack with the far-out-of-range label 5. -/
def dpBigLabel : DataPack :=
  { dpTrainTiny with relation :=
      { dpTrainTiny.relation with label := { dtype := Dtype.float, values := [5] } } }

/-- C3 witness: the amended theorem applied at label 5 with two
classes. -/
theorem classification_out_of_range_indexError_witness :
    getBatch dpBigLabel (MzTask.classification 2) [0] = Except.error PyErr.indexError :=
  classification_out_of_range_indexError dpBigLabel 2 [0] rfl (by decide)
    ⟨0, by decide, 5, rfl, by decide⟩

/-- C5: for every batch the point generator produces, the feature
dictionary's key set is exactly the left table's columns, the right
table's columns, and `id_left`/`id_right`; every key is bound to an
array with one entry per batch row, gathered by id lookup. -/
theorem batch_feature_dict_keys (dp : DataPack) (task : MzTask) (idx : List ℕ)
    (r : BatchResult) (hok : getBatch dp task idx = Except.ok r) :
    (∀ k, k ∈ r.batch_x.map Prod.fst ↔
      (k ∈ dp.left.columns ∨ k ∈ dp.right.columns ∨ k = "id_left" ∨ k = "id_right")) ∧
    (∀ k, k ∈ r.batch_x.map Prod.fst →
      ∃ v, dictGet r.batch_x k = some v ∧ v.length = idx.length) := by
  obtain ⟨y, dp', c, htl, haf⟩ := getBatch_ok_decomp dp task idx r hok
  obtain ⟨hc', hdp'⟩ := trainLabels_ok_state dp task idx y dp' c htl
  have hL : dp'.left = dp.left := by
    rw [hdp']
    by_cases hs : dp.stage = "train" <;> simp [hs]
  have hR : dp'.right = dp.right := by
    rw [hdp']
    by_cases hs : dp.stage = "train" <;> simp [hs]
  obtain ⟨-, -, -, ids_left, ids_right, d2, h1, h3, h2, h4⟩ :=
    assembleFeatures_ok dp' idx _ y c r haf
  have h1' : mapE (fun i =>
      match dp'.relation.id_left.get? i with
      | some v => Except.ok v
      | none => Except.error PyErr.indexError) idx = Except.ok ids_left := h1
  have h3' : mapE (fun i =>
      match dp'.relation.id_right.get? i with
      | some v => Except.ok v
      | none => Except.error PyErr.indexError) idx = Except.ok ids_right := h3
  have hlen_l : ids_left.length = idx.length := mapE_ok_length _ idx ids_left h1'
  have hlen_r : ids_right.length = idx.length := mapE_ok_length _ idx ids_right h3'
  obtain ⟨hset2_1, hset2_2, hset2_3⟩ :=
    setColumnsGo_ok dp'.left ids_left dp'.left.columns _ d2 h2
  obtain ⟨hset4_1, hset4_2, hset4_3⟩ :=
    setColumnsGo_ok dp'.right ids_right dp'.right.columns _ r.batch_x h4
  have hiff : ∀ k, k ∈ r.batch_x.map Prod.fst ↔
      (k ∈ dp.left.columns ∨ k ∈ dp.right.columns ∨ k = "id_left" ∨ k = "id_right") := by
    intro k
    have h0keys := mem_keys_initDict
      (dp.left.columns ++ dp.right.columns ++ ["id_left", "id_right"]) k
    rw [hset4_3 k, mem_keys_dictSet, hset2_3 k, mem_keys_dictSet, h0keys, hL, hR]
    simp only [List.mem_append, List.mem_cons, List.not_mem_nil, or_false]
    tauto
  refine ⟨hiff, ?_⟩
  intro k hk
  by_cases hkR : k ∈ dp.right.columns
  · obtain ⟨v, hgv, hdv⟩ := hset4_1 k (by rw [hR]; exact hkR)
    refine ⟨v, hdv, ?_⟩
    have hgv' : mapE (fun id => tableLookup dp'.right id k) ids_right = Except.ok v := hgv
    rw [mapE_ok_length _ ids_right v hgv', hlen_r]
  · have hd3 : dictGet r.batch_x k
        = dictGet (dictSet d2 "id_right" (ids_right.map Cell.str)) k :=
      hset4_2 k (by rw [hR]; exact hkR)
    by_cases hkir : k = "id_right"
    · subst hkir
      rw [hd3, dictGet_dictSet_self]
      exact ⟨ids_right.map Cell.str, rfl, by rw [List.length_map, hlen_r]⟩
    · rw [hd3, dictGet_dictSet_other d2 "id_right" k _ hkir]
      by_cases hkL : k ∈ dp.left.columns
      · obtain ⟨v, hgv, hdv⟩ := hset2_1 k (by rw [hL]; exact hkL)
        refine ⟨v, hdv, ?_⟩
        have hgv' : mapE (fun id => tableLookup dp'.left id k) ids_left = Except.ok v := hgv
        rw [mapE_ok_length _ ids_left v hgv', hlen_l]
      · have hd1 : dictGet d2 k
            = dictGet (dictSet
                (initDict (dp.left.columns ++ dp.right.columns ++ ["id_left", "id_right"]))
                "id_left" (ids_left.map Cell.str)) k :=
          hset2_2 k (by rw [hL]; exact hkL)
        by_cases hkil : k = "id_left"
        · subst hkil
          rw [hd1, dictGet_dictSet_self]
          exact ⟨ids_left.map Cell.str, rfl, by rw [List.length_map, hlen_l]⟩
        · exfalso
          rcases (hiff k).mp hk with h | h | h | h
          · exact hkL h
          · exact hkR h
          · exact hkil h
          · exact hkir h

/-- The DataPack of the class docstring's doctest (train stage, one
relation row, text and length columns on each side). -/
def dpDoctest : DataPack :=
  { left := { columns := ["text_left", "length_left"]
              rows := [("qid0", [Cell.intList [1, 2], Cell.int 2])] }
    right := { columns := ["text_right", "length_right"]
               rows := [("did0", [Cell.intList [2, 3], Cell.int 2])] }
    relation := { id_left := ["qid0"], id_right := ["did0"]
                  label := { dtype := Dtype.int, values := [1] } }
    stage := "train" }

/-- The batch the doctest DataPack produces under Classification(2). -/
def rDoctest : BatchResult :=
  { batch_x := [("text_left", [Cell.intList [1, 2]]), ("length_left", [Cell.int 2]),
      ("text_right", [Cell.intList [2, 3]]), ("length_right", [Cell.int 2]),
      ("id_left", [Cell.str "qid0"]), ("id_right", [Cell.str "did0"])]
    batch_y := some (BatchY.oneHot [[0, 1]])
    datapack := dpDoctest
    castPerformed := true }

/-- C5 witness: the theorem applied to the doctest scenario. -/
theorem batch_feature_dict_keys_witness :
    ("length_left" ∈ rDoctest.batch_x.map Prod.fst) ∧
    (∃ v, dictGet rDoctest.batch_x "id_left" = some v ∧ v.length = 1) := by
  obtain ⟨hkeys, hlen⟩ :=
    batch_feature_dict_keys dpDoctest (MzTask.classification 2) [0] rDoctest (by decide)
  exact ⟨(hkeys "length_left").mpr (by decide),
    hlen "id_left" ((hkeys "id_left").mpr (by decide))⟩
